import Mathlib

/-!
Verification of the deriv-app-id-action repository (src/index.js) against its
natural-language specification.

The single source file is a GitHub Action that manages Deriv "App IDs" for
PR preview deployments.  We give a shallow embedding of its logic:

* name derivation (`src/index.js` lines 171-177),
* the run of `AppIdGenerator.runAction` (lines 111-192), with the remote
  services (open-PR lister, authorize, appList, appRegister, appUpdate)
  abstracted as an environment of oracle responses,
* the pagination loop of `getOpenPullRequests` (lines 61-96),
* the retry loop of the main entry point (lines 211-226).

JavaScript evaluation-order subtlety that the embedding reflects: in the
No-op branch (lines 149-160) `resolve()` is called without `return`, so the
executor keeps running synchronously: it computes the recyclable app and
invokes `appUpdate`/`appRegister` (the request is issued), then suspends at
the `await`.  Meanwhile the resolved promise lets `main` run
`process.exit(0)`, which happens before any network response can be
delivered (responses need a macrotask), so lines 183-190 never execute in
that case: the second batch of `setOutput` calls is never reached and
`reject()` can never fire after the first `resolve()`.
-/

namespace DerivAppIdAction

/-! ## Name derivation (src/index.js lines 171-177)

`issue.title.replace(/[^A-Za-z0-9 ]/g, '').substring(0, 35)` and the
template `` `${stripped_app_title} PR${issue.number}` ``. -/

/-- The character class `[A-Za-z0-9 ]` of the regex on line 171. -/
def isAllowedChar (c : Char) : Bool :=
  ('A' ≤ c && c ≤ 'Z') || ('a' ≤ c && c ≤ 'z') || ('0' ≤ c && c ≤ '9') || c == ' '

/-- `title.replace(/[^A-Za-z0-9 ]/g, '')`: a global replace of every
character outside the class by the empty string, i.e. a left-to-right scan
dropping each disallowed character. -/
def jsReplaceStrip : List Char → List Char
  | [] => []
  | c :: cs => if isAllowedChar c then c :: jsReplaceStrip cs else jsReplaceStrip cs

/-- `stripped_app_title` (line 171): the stripped title truncated by
`.substring(0, 35)`.  After the replace, every remaining character is ASCII,
so JavaScript's UTF-16-code-unit `substring` agrees with taking the first 35
characters. -/
def stripped_app_title (title : String) : String :=
  ⟨(jsReplaceStrip title.data).take 35⟩

/-- The App display name (line 173): `` `${stripped_app_title} PR${issue.number}` ``.
`${issue.number}` renders the PR number in decimal, i.e. `Nat.repr`. -/
def appName (title : String) (number : Nat) : String :=
  stripped_app_title title ++ " PR" ++ Nat.repr number

/-- The name as the spec's words describe it ("append the literal text
\"PR<number>\"", with no separator).  Declared only to compare against
`appName`, which is translated from the source. -/
def specAppName (title : String) (number : Nat) : String :=
  stripped_app_title title ++ "PR" ++ Nat.repr number

/-! ## The data model of `runAction` (src/index.js lines 111-192)

The code reads only `app_id`, `redirect_uri` and `github` from the Apps
returned by `appList`; `github` is absent on apps not managed by the action
(`app.github` is then `undefined`, falsy in JavaScript, as is `''`). -/

/-- An App record as used by the action. -/
structure App where
  app_id : Nat
  redirect_uri : String
  github : Option String
deriving DecidableEq

/-- The options object built on lines 172-177 and sent with
`appRegister`/`appUpdate`. -/
structure AppOptions where
  name : String
  redirect_uri : String
  github : String
  scopes : List String
deriving DecidableEq

/-- `github.context.payload.issue`: the fields the code reads. -/
structure Issue where
  title : String
  number : Nat
  html_url : String
deriving DecidableEq

/-- A mutating request issued to the registry (`appRegister` on line 32,
`appUpdate` on line 199).  `authorize` and `app_list` are read-only and are
modelled by the environment below. -/
inductive RegistryRequest where
  | update (app_id : Nat) (opts : AppOptions)
  | register (opts : AppOptions)
deriving DecidableEq

/-- Oracle responses of the two remote services for one attempt.
`none` models the sentinel `false` the code uses for a failed call:
`getOpenPullRequests` resolves the open PRs (kept here as their
`html_url`s, which is all lines 137-167 consult) or `false`;
`authorise`, `appList`, `appRegister`, `appUpdate` likewise. -/
structure Env where
  issue : Issue
  preview_url : String
  open_prs : Option (List String)
  authorise_ok : Bool
  apps : Option (List App)
  register_resp : AppOptions → Option App
  update_resp : Nat → AppOptions → Option App

/-- The observable result of one `runAction` attempt: whether the promise
resolved (caught by `main`; `false` = rejected), the register/update
requests issued to the registry, and the published outputs (each
`core.setOutput` key is written at most once per attempt, see the module
comment on `process.exit` preemption). -/
structure RunResult where
  resolved : Bool
  requests : List RegistryRequest
  out_pr_url : Option String
  out_pr_number : Option Nat
  out_app_id : Option Nat
  out_should_post_comment : Option Bool
deriving DecidableEq

/-- Result of an attempt that rejected before issuing any request. -/
def emptyResult : RunResult :=
  { resolved := false, requests := [], out_pr_url := none, out_pr_number := none
    out_app_id := none, out_should_post_comment := none }

/-- Lines 172-177: the `app_options` object. -/
def app_options (issue : Issue) (preview_url : String) : AppOptions :=
  { name := appName issue.title issue.number
    redirect_uri := preview_url
    github := issue.html_url
    scopes := ["read", "trade", "trading_information", "payments", "admin"] }

/-- Predicate of `apps.find` on lines 137-139: an App for this PR whose
`redirect_uri` is stale (`app.github === issue.pull_request.html_url &&
app.redirect_uri !== preview_url`). -/
def isPrAppStaleUri (url preview : String) (a : App) : Bool :=
  a.github == some url && a.redirect_uri != preview

/-- Predicate of `apps.find` on lines 145-147: an App already matching this
PR and the current preview URL (the No-op check). -/
def isPrAppCurrentUri (url preview : String) (a : App) : Bool :=
  a.github == some url && a.redirect_uri == preview

/-- Predicate of `getRecyclableApp` (lines 165-168):
`app.github && !open_pull_requests_urls.includes(app.github)`.
JavaScript truthiness of `app.github` excludes both an absent field and the
empty string. -/
def isRecyclable (open_urls : List String) (a : App) : Bool :=
  match a.github with
  | none => false
  | some g => !g.isEmpty && !(open_urls.contains g)

/-- The request built on lines 179-181 from `existing_app = app_to_recycle
|| getRecyclableApp()`: update it when present, register a new App when not. -/
def requestFor (env : Env) (target : Option App) : RegistryRequest :=
  match target with
  | some a => RegistryRequest.update a.app_id (app_options env.issue env.preview_url)
  | none => RegistryRequest.register (app_options env.issue env.preview_url)

/-- The No-op branch (lines 149-160) as it actually executes: the four
`setOutput` calls of lines 154-157 and `resolve()`, after which the
fall-through of the missing `return` still issues the line-180/181 request
(with `app_to_recycle` known absent, its target is the recyclable app),
while `process.exit(0)` preempts the response. -/
def noopHaltResult (env : Env) (open_urls : List String) (apps : List App)
    (existing : App) : RunResult :=
  { resolved := true
    requests := [requestFor env (apps.find? (isRecyclable open_urls))]
    out_pr_url := some env.issue.html_url
    out_pr_number := some env.issue.number
    out_app_id := some existing.app_id
    out_should_post_comment := some false }

/-- Lines 179-190 when the No-op branch did not resolve: await the update
(line 180) or register (line 181) response; on failure `reject()` (line 183),
on success the four `setOutput` calls of lines 185-188 and `resolve()`. -/
def normalFinish (env : Env) (target : Option App) : RunResult :=
  match (match target with
         | some a => env.update_resp a.app_id (app_options env.issue env.preview_url)
         | none => env.register_resp (app_options env.issue env.preview_url)) with
  | none => { emptyResult with requests := [requestFor env target] }
  | some app =>
    { resolved := true
      requests := [requestFor env target]
      out_pr_url := some env.issue.html_url
      out_pr_number := some env.issue.number
      out_app_id := some app.app_id
      out_should_post_comment := some true }

/-- Lines 134-191 once the three remote reads succeeded: `app_to_recycle`
(lines 137-139), the No-op check guarded by `if (!app_to_recycle)`
(lines 141-161), and `existing_app = app_to_recycle || getRecyclableApp()`
(line 170) feeding the update/register of lines 179-181. -/
def runPolicy (env : Env) (open_urls : List String) (apps : List App) : RunResult :=
  let app_to_recycle := apps.find? (isPrAppStaleUri env.issue.html_url env.preview_url)
  let target := match app_to_recycle with
    | some a => some a
    | none => apps.find? (isRecyclable open_urls)
  match app_to_recycle, apps.find? (isPrAppCurrentUri env.issue.html_url env.preview_url) with
  | none, some existing => noopHaltResult env open_urls apps existing
  | _, _ => normalFinish env target

/-- `runAction` (lines 111-192): the three leading remote reads in source
order — open PRs (line 117), authorise (line 128), appList (line 131) —
each rejecting the attempt on failure, then the policy. -/
def runAction (env : Env) : RunResult :=
  match env.open_prs with
  | none => emptyResult
  | some open_urls =>
    if env.authorise_ok = false then emptyResult
    else
      match env.apps with
      | none => emptyResult
      | some apps => runPolicy env open_urls apps

/-! ## `getOpenPullRequests` pagination (src/index.js lines 61-96)

The loop fetches page `current_page` (page size 100 is the remote's
concern; here a page is just the list the remote returns), and while a page
is non-empty appends it and increments the cursor; the first empty page
resolves the accumulator.  `pages` maps a page number to the remote's
response for it; `fuel` bounds the unbounded `while (true)` so the model is
total (`none` = the loop has not terminated within `fuel` iterations).  The
returned pair also records which page numbers were requested, in order. -/

def getOpenPullRequestsLoop {α : Type} (pages : Nat → List α) :
    Nat → Nat → List α → List Nat → Option (List Nat × List α)
  | 0, _, _, _ => none
  | fuel + 1, current_page, acc, requested =>
    let data := pages current_page
    if data.isEmpty then some (requested ++ [current_page], acc)
    else getOpenPullRequestsLoop pages fuel (current_page + 1) (acc ++ data)
      (requested ++ [current_page])

/-- Lines 66-67: the accumulator starts empty and `current_page` starts at 1. -/
def getOpenPullRequests {α : Type} (pages : Nat → List α) (fuel : Nat) :
    Option (List Nat × List α) :=
  getOpenPullRequestsLoop pages fuel 1 [] []

/-! ## The retry loop of the entry point (src/index.js lines 211-226) -/

/-- `for (let i = 1; i <= max_retries; i++) { try { ...; process.exit(0) }
catch { warn } }` followed by `core.setFailed(...); process.exit(1)`.
`outcome i` tells whether attempt `i`'s `runAction` resolves (a fresh
`AppIdGenerator` per attempt).  The result is the exit code paired with the
number of attempts executed. -/
def mainLoop (outcome : Nat → Bool) : Nat → Nat → Nat × Nat
  | 0, i => (1, i - 1)
  | remaining + 1, i => if outcome i then (0, i) else mainLoop outcome remaining (i + 1)

/-- The coercion JavaScript applies in `i <= max_retries`:
`core.getInput` yields a string, `''` when the input is absent, and
`Number('') = 0`; a decimal numeral parses to its value. -/
def jsNumber (s : String) : Nat :=
  (s.toNat?).getD 0

/-- The whole entry point: the loop starts at attempt `i = 1`. -/
def mainRun (outcome : Nat → Bool) (max_retries : Nat) : Nat × Nat :=
  mainLoop outcome max_retries 1

/-! ## Concrete fixtures used to evaluate the model -/

/-- A PR: `issue.title = "Fix things"`, `issue.number = 7`,
`issue.pull_request.html_url = "u"`. -/
def issue7 : Issue :=
  { title := "Fix things", number := 7, html_url := "u" }

/-- An App already registered for `issue7` with the current preview URL. -/
def appCurrent : App :=
  { app_id := 11, redirect_uri := "p", github := some "u" }

/-- The run of the pure No-op situation: the PR is open, its App matches
both its URL and the preview URL, and no other App exists. -/
def envNoop : Env :=
  { issue := issue7, preview_url := "p", open_prs := some ["u"]
    authorise_ok := true, apps := some [appCurrent]
    register_resp := fun _ => some { app_id := 99, redirect_uri := "p", github := some "u" }
    update_resp := fun _ _ => some { app_id := 99, redirect_uri := "p", github := some "u" } }

/-- An App for `issue7` whose `redirect_uri` is stale. -/
def appStale : App :=
  { app_id := 1, redirect_uri := "r", github := some "u" }

/-- An App for `issue7` matching the current preview URL. -/
def appCurrent2 : App :=
  { app_id := 2, redirect_uri := "p", github := some "u" }

/-- A run where one App matches the PR with a stale `redirect_uri` and a
second App matches the PR with the current preview URL. -/
def envBoth : Env :=
  { issue := issue7, preview_url := "p", open_prs := some ["u"]
    authorise_ok := true, apps := some [appStale, appCurrent2]
    register_resp := fun _ => none
    update_resp := fun _ _ => some { app_id := 1, redirect_uri := "p", github := some "u" } }

/-- An App for `issue7` with a stale `redirect_uri`, for the relabel fixture. -/
def appStale21 : App :=
  { app_id := 21, redirect_uri := "old", github := some "u" }

/-- A run where the only App matches the PR with a stale `redirect_uri`. -/
def envStale : Env :=
  { issue := issue7, preview_url := "p", open_prs := some ["u"]
    authorise_ok := true, apps := some [appStale21]
    register_resp := fun _ => none
    update_resp := fun _ _ => some { app_id := 21, redirect_uri := "p", github := some "u" } }

/-- An App whose `github` points at a closed PR ("closed" is not open). -/
def appClosed : App :=
  { app_id := 31, redirect_uri := "x", github := some "closed" }

/-- A run with no App for this PR and one recyclable App. -/
def envRecycle : Env :=
  { issue := issue7, preview_url := "p", open_prs := some ["u"]
    authorise_ok := true, apps := some [appClosed]
    register_resp := fun _ => none
    update_resp := fun _ _ => some { app_id := 31, redirect_uri := "p", github := some "u" } }

/-- An App for the provenance fixture. -/
def appStale41 : App :=
  { app_id := 41, redirect_uri := "old", github := some "u" }

/-- A run used to witness app_id provenance: its only App is relabelled. -/
def envProv : Env :=
  { issue := issue7, preview_url := "p", open_prs := some ["u"]
    authorise_ok := true, apps := some [appStale41]
    register_resp := fun _ => none
    update_resp := fun _ _ => some { app_id := 41, redirect_uri := "p", github := some "u" } }

/-- Remote pages of sizes 100, 100, 37, then empty: the spec's pagination
fixture. -/
def fixturePages (p : Nat) : List Nat :=
  if p = 1 then List.range 100
  else if p = 2 then (List.range 100).map (· + 100)
  else if p = 3 then (List.range 37).map (· + 200)
  else []

/-- Attempt outcomes that fail on attempts 1 and 2 and succeed on attempt 3:
the spec's retry fixture. -/
def succeedsOnThird (i : Nat) : Bool :=
  i == 3

/-- A long PR title: 40 letters, so the stripped title is 40 characters. -/
def longTitle : String :=
  "aaaaaaaaaaaaaaaaaaaaaaaaaaaaaaaaaaaaaaaa"

/-! ## Helper lemmas -/

lemma jsReplaceStrip_eq_filter (l : List Char) :
    jsReplaceStrip l = l.filter isAllowedChar := by
  induction l with
  | nil => rfl
  | cons c cs ih =>
    by_cases h : isAllowedChar c <;> simp [jsReplaceStrip, List.filter, h, ih]

lemma digitChar_allowed (d : Nat) (h : d < 10) :
    isAllowedChar (Nat.digitChar d) = true := by
  interval_cases d <;> decide

lemma toDigitsCore_allowed (fuel : Nat) :
    ∀ (n : Nat) (acc : List Char), (∀ c ∈ acc, isAllowedChar c = true) →
      ∀ c ∈ Nat.toDigitsCore 10 fuel n acc, isAllowedChar c = true := by
  induction fuel with
  | zero => intro n acc hacc c hc; exact hacc c hc
  | succ fuel ih =>
    intro n acc hacc c hc
    rw [Nat.toDigitsCore] at hc
    by_cases h0 : n / 10 = 0
    · simp only [h0, if_pos] at hc
      rcases List.mem_cons.mp hc with h | h
      · subst h; exact digitChar_allowed _ (Nat.mod_lt _ (by omega))
      · exact hacc c h
    · simp only [h0, if_neg, not_false_iff] at hc
      refine ih (n / 10) (Nat.digitChar (n % 10) :: acc) ?_ c hc
      intro d hd
      rcases List.mem_cons.mp hd with h | h
      · subst h; exact digitChar_allowed _ (Nat.mod_lt _ (by omega))
      · exact hacc d h

lemma repr_chars_allowed (n : Nat) :
    ∀ c ∈ (Nat.repr n).data, isAllowedChar c = true := by
  intro c hc
  have h : (Nat.repr n).data = Nat.toDigitsCore 10 (n + 1) n [] := rfl
  rw [h] at hc
  exact toDigitsCore_allowed (n + 1) n [] (by intro d hd; cases hd) c hc

/-- The character list underlying a derived App name. -/
lemma appName_data (t : String) (n : Nat) :
    (appName t n).data =
      (jsReplaceStrip t.data).take 35 ++ (' ' :: 'P' :: 'R' :: (Nat.repr n).data) := by
  show ((stripped_app_title t ++ " PR") ++ Nat.repr n).data = _
  rw [String.data_append, String.data_append]
  show ((jsReplaceStrip t.data).take 35 ++ [' ', 'P', 'R']) ++ (Nat.repr n).data = _
  simp [List.append_assoc]

/-- Every character of a derived App name lies in the regex class
`[A-Za-z0-9 ]`. -/
lemma appName_chars_allowed (t : String) (n : Nat) :
    ∀ c ∈ (appName t n).data, isAllowedChar c = true := by
  rw [appName_data]
  intro c hc
  rcases List.mem_append.mp hc with h1 | h2
  · have hmem := List.mem_of_mem_take h1
    rw [jsReplaceStrip_eq_filter] at hmem
    exact (List.mem_filter.mp hmem).2
  · rcases List.mem_cons.mp h2 with h | h
    · subst h; decide
    rcases List.mem_cons.mp h with h | h
    · subst h; decide
    rcases List.mem_cons.mp h with h | h
    · subst h; decide
    · exact repr_chars_allowed n c h

lemma requestFor_some (env : Env) (a : App) :
    requestFor env (some a) =
      RegistryRequest.update a.app_id (app_options env.issue env.preview_url) := rfl

lemma requestFor_none (env : Env) :
    requestFor env none =
      RegistryRequest.register (app_options env.issue env.preview_url) := rfl

lemma runAction_eq_runPolicy (env : Env) (open_urls : List String) (apps : List App)
    (ho : env.open_prs = some open_urls) (ha : env.authorise_ok = true)
    (hl : env.apps = some apps) :
    runAction env = runPolicy env open_urls apps := by
  unfold runAction
  rw [ho, ha, hl]
  rfl

lemma runAction_no_prs (env : Env) (ho : env.open_prs = none) :
    runAction env = emptyResult := by
  unfold runAction
  rw [ho]

lemma runAction_no_auth (env : Env) (open_urls : List String)
    (ho : env.open_prs = some open_urls) (ha : env.authorise_ok = false) :
    runAction env = emptyResult := by
  unfold runAction
  rw [ho, ha]
  rfl

lemma runAction_no_apps (env : Env) (open_urls : List String)
    (ho : env.open_prs = some open_urls) (ha : env.authorise_ok = true)
    (hl : env.apps = none) :
    runAction env = emptyResult := by
  unfold runAction
  rw [ho, ha, hl]
  rfl

lemma runPolicy_stale (env : Env) (open_urls : List String) (apps : List App) (a : App)
    (hstale : apps.find? (isPrAppStaleUri env.issue.html_url env.preview_url) = some a) :
    runPolicy env open_urls apps = normalFinish env (some a) := by
  unfold runPolicy
  rw [hstale]

lemma runPolicy_noop (env : Env) (open_urls : List String) (apps : List App) (existing : App)
    (hstale : apps.find? (isPrAppStaleUri env.issue.html_url env.preview_url) = none)
    (hcur : apps.find? (isPrAppCurrentUri env.issue.html_url env.preview_url) = some existing) :
    runPolicy env open_urls apps = noopHaltResult env open_urls apps existing := by
  unfold runPolicy
  rw [hstale, hcur]

lemma runPolicy_nomatch (env : Env) (open_urls : List String) (apps : List App)
    (hstale : apps.find? (isPrAppStaleUri env.issue.html_url env.preview_url) = none)
    (hcur : apps.find? (isPrAppCurrentUri env.issue.html_url env.preview_url) = none) :
    runPolicy env open_urls apps = normalFinish env (apps.find? (isRecyclable open_urls)) := by
  unfold runPolicy
  rw [hstale, hcur]

lemma normalFinish_some_eq (env : Env) (a : App) :
    normalFinish env (some a) =
      (match env.update_resp a.app_id (app_options env.issue env.preview_url) with
       | none => { emptyResult with requests := [requestFor env (some a)] }
       | some app =>
         { resolved := true
           requests := [requestFor env (some a)]
           out_pr_url := some env.issue.html_url
           out_pr_number := some env.issue.number
           out_app_id := some app.app_id
           out_should_post_comment := some true }) := rfl

lemma normalFinish_none_eq (env : Env) :
    normalFinish env none =
      (match env.register_resp (app_options env.issue env.preview_url) with
       | none => { emptyResult with requests := [requestFor env none] }
       | some app =>
         { resolved := true
           requests := [requestFor env none]
           out_pr_url := some env.issue.html_url
           out_pr_number := some env.issue.number
           out_app_id := some app.app_id
           out_should_post_comment := some true }) := rfl

lemma normalFinish_requests (env : Env) (target : Option App) :
    (normalFinish env target).requests = [requestFor env target] := by
  cases target with
  | none =>
    rw [normalFinish_none_eq]
    cases env.register_resp (app_options env.issue env.preview_url) <;> rfl
  | some a =>
    rw [normalFinish_some_eq]
    cases env.update_resp a.app_id (app_options env.issue env.preview_url) <;> rfl

lemma normalFinish_spc_ne_false (env : Env) (target : Option App) :
    (normalFinish env target).out_should_post_comment ≠ some false := by
  cases target with
  | none =>
    rw [normalFinish_none_eq]
    cases env.register_resp (app_options env.issue env.preview_url) <;> simp [emptyResult]
  | some a =>
    rw [normalFinish_some_eq]
    cases env.update_resp a.app_id (app_options env.issue env.preview_url) <;> simp [emptyResult]

/-! ## The claims -/

/-- C1: the claim says that when an App already matches both the current
PR's URL and the preview URL, the run emits that App's app_id and issues no
register or update request.  The code violates this: the `resolve()` on
line 159 is not followed by `return`, so after emitting the No-op outputs
(app_id 11, `should_post_comment = false`) the fall-through still issues a
register request (here no recyclable App exists, so `appRegister` is
invoked), contradicting the comment on lines 142-144 ("if so, don't do
anything").  This theorem evaluates the model at that failing input. -/
theorem C1_noop_still_issues_request :
    (runAction envNoop).resolved = true ∧
    (runAction envNoop).out_app_id = some 11 ∧
    (runAction envNoop).out_should_post_comment = some false ∧
    (runAction envNoop).requests = [RegistryRequest.register (app_options issue7 "p")] := by
  decide

/-- C2 counterexample: the claim says `should_post_comment` is false exactly
when some App matches both the current PR's URL and the preview URL.  In
`envBoth` such an App exists (`appCurrent2`), yet the run resolves with
`should_post_comment = true`, because the code checks the stale-URI
(Relabel) candidate first and only runs the No-op check when none exists. -/
theorem C2_counterexample :
    envBoth.apps = some [appStale, appCurrent2] ∧
    (∃ a ∈ [appStale, appCurrent2],
        a.github = some envBoth.issue.html_url ∧ a.redirect_uri = envBoth.preview_url) ∧
    (runAction envBoth).resolved = true ∧
    (runAction envBoth).out_should_post_comment = some true := by
  decide

/-- C2 (amended): for every run that completes successfully, the published
`should_post_comment` is false exactly when the No-op branch is taken: no
App matches the current PR's URL with a different `redirect_uri`, and some
App matches both the PR's URL and the preview URL. -/
theorem C2_spc_false_iff_noop_branch (env : Env) (open_urls : List String)
    (apps : List App)
    (ho : env.open_prs = some open_urls) (ha : env.authorise_ok = true)
    (hl : env.apps = some apps) (hres : (runAction env).resolved = true) :
    ((runAction env).out_should_post_comment = some false ↔
      ((∀ a ∈ apps, ¬ isPrAppStaleUri env.issue.html_url env.preview_url a) ∧
        ∃ a ∈ apps, isPrAppCurrentUri env.issue.html_url env.preview_url a)) := by
  rw [runAction_eq_runPolicy env open_urls apps ho ha hl]
  rcases hstale : apps.find? (isPrAppStaleUri env.issue.html_url env.preview_url) with _ | a
  · rcases hcur : apps.find? (isPrAppCurrentUri env.issue.html_url env.preview_url) with _ | e
    · rw [runPolicy_nomatch env open_urls apps hstale hcur]
      constructor
      · intro hfalse
        exact absurd hfalse (normalFinish_spc_ne_false env _)
      · rintro ⟨-, e, hmem, hpred⟩
        exact absurd hpred ((List.find?_eq_none.mp hcur) e hmem)
    · rw [runPolicy_noop env open_urls apps e hstale hcur]
      refine iff_of_true rfl ⟨List.find?_eq_none.mp hstale, e, ?_, ?_⟩
      · exact List.mem_of_find?_eq_some hcur
      · exact List.find?_some hcur
  · rw [runPolicy_stale env open_urls apps a hstale]
    constructor
    · intro hfalse
      exact absurd hfalse (normalFinish_spc_ne_false env _)
    · rintro ⟨hall, -⟩
      exact absurd (List.find?_some hstale)
        (hall a (List.mem_of_find?_eq_some hstale))

/-- C2 witness: in the pure No-op run `envNoop`, the amended theorem yields
`should_post_comment = false`. -/
theorem C2_witness :
    (runAction envNoop).out_should_post_comment = some false :=
  (C2_spc_false_iff_noop_branch envNoop ["u"] [appCurrent] rfl rfl rfl
    (by decide)).mpr (by decide)

/-- C3: whenever some App matches the current PR's URL with a different
`redirect_uri`, the run issues exactly one registry request: an update of
that (first such) App's app_id, whose options carry the new preview URL —
and never a register request.  Here `a` is the first match, per
`apps.find` on lines 137-139. -/
theorem C3_stale_uri_updates_in_place (env : Env) (open_urls : List String)
    (apps : List App) (a : App)
    (ho : env.open_prs = some open_urls) (ha : env.authorise_ok = true)
    (hl : env.apps = some apps)
    (hfind : apps.find? (isPrAppStaleUri env.issue.html_url env.preview_url) = some a) :
    (runAction env).requests =
      [RegistryRequest.update a.app_id (app_options env.issue env.preview_url)] ∧
    (app_options env.issue env.preview_url).redirect_uri = env.preview_url ∧
    (∀ o, RegistryRequest.register o ∉ (runAction env).requests) := by
  have hreq : (runAction env).requests =
      [RegistryRequest.update a.app_id (app_options env.issue env.preview_url)] := by
    rw [runAction_eq_runPolicy env open_urls apps ho ha hl,
      runPolicy_stale env open_urls apps a hfind, normalFinish_requests,
      requestFor_some]
  refine ⟨hreq, rfl, ?_⟩
  intro o
  rw [hreq]
  simp

/-- C3 witness: in `envStale` the only App (app_id 21) matches the PR with a
stale `redirect_uri` and the run issues exactly its update. -/
theorem C3_witness :
    (runAction envStale).requests = [RegistryRequest.update 21 (app_options issue7 "p")] :=
  (C3_stale_uri_updates_in_place envStale ["u"] [appStale21] appStale21
    rfl rfl rfl (by decide)).1

/-- C4: when no App's `github` equals the current PR's URL, the run issues
exactly one request: an update of the first App whose `github` is present
(truthy) and matches no open-PR URL, carrying the new PR's options; and a
register of a brand-new App when no such recyclable App exists. -/
theorem C4_recycle_or_create (env : Env) (open_urls : List String) (apps : List App)
    (ho : env.open_prs = some open_urls) (ha : env.authorise_ok = true)
    (hl : env.apps = some apps)
    (hnone : ∀ a ∈ apps, a.github ≠ some env.issue.html_url) :
    (∀ r, apps.find? (isRecyclable open_urls) = some r →
        (runAction env).requests =
          [RegistryRequest.update r.app_id (app_options env.issue env.preview_url)]) ∧
    (apps.find? (isRecyclable open_urls) = none →
        (runAction env).requests =
          [RegistryRequest.register (app_options env.issue env.preview_url)]) := by
  have hstale : apps.find? (isPrAppStaleUri env.issue.html_url env.preview_url) = none := by
    rw [List.find?_eq_none]
    intro a hmem hpred
    simp only [isPrAppStaleUri, Bool.and_eq_true, beq_iff_eq] at hpred
    exact hnone a hmem hpred.1
  have hcur : apps.find? (isPrAppCurrentUri env.issue.html_url env.preview_url) = none := by
    rw [List.find?_eq_none]
    intro a hmem hpred
    simp only [isPrAppCurrentUri, Bool.and_eq_true, beq_iff_eq] at hpred
    exact hnone a hmem hpred.1
  have hrun : runAction env = normalFinish env (apps.find? (isRecyclable open_urls)) := by
    rw [runAction_eq_runPolicy env open_urls apps ho ha hl,
      runPolicy_nomatch env open_urls apps hstale hcur]
  constructor
  · intro r hr
    rw [hrun, hr, normalFinish_requests, requestFor_some]
  · intro hr
    rw [hrun, hr, normalFinish_requests, requestFor_none]

/-- C4 witness: in `envRecycle` no App matches the PR's URL, the only App's
`github` points at a closed PR, and the run issues exactly its update. -/
theorem C4_witness :
    (runAction envRecycle).requests = [RegistryRequest.update 31 (app_options issue7 "p")] :=
  (C4_recycle_or_create envRecycle ["u"] [appClosed] rfl rfl rfl (by decide)).1
    appClosed (by decide)

/-- C5 counterexample: the claim says the display name is the stripped,
truncated title with the literal text "PR<number>" appended; the code
(line 173) inserts a space before "PR", so on title "Hello" and number 5
the derived name differs from the claim's. -/
theorem C5_counterexample :
    appName "Hello" 5 = "Hello PR5" ∧ appName "Hello" 5 ≠ specAppName "Hello" 5 := by
  decide

/-- C5 (amended): the derived display name is the title with all characters
outside {A-Z, a-z, 0-9, space} removed, truncated to the first 35
characters, followed by a space and then the literal text "PR<number>". -/
theorem C5_name_strip_truncate_space_suffix (t : String) (n : Nat) :
    (appName t n).data =
      (t.data.filter isAllowedChar).take 35 ++ (' ' :: 'P' :: 'R' :: (Nat.repr n).data) := by
  rw [appName_data, jsReplaceStrip_eq_filter]

/-- C6 counterexample: name derivation is not idempotent.  On title "Hi"
and number 5 the derived name is "Hi PR5"; re-deriving from it (its
stripped form is 6 < 35 characters, so nothing is truncated) yields
"Hi PR5 PR5". -/
theorem C6_counterexample :
    appName "Hi" 5 = "Hi PR5" ∧ appName (appName "Hi" 5) 5 ≠ appName "Hi" 5 := by
  decide

/-- C6 (amended): re-applying the strip+truncate+suffix derivation to an
already-derived name yields the same name, provided the stripped raw title
has at least 35 characters (so the truncated prefix is exactly 35 characters
and the appended " PR<number>" suffix is cut back off by the truncation). -/
theorem C6_idempotent_on_long_titles (t : String) (n : Nat)
    (h : 35 ≤ (jsReplaceStrip t.data).length) :
    appName (appName t n) n = appName t n := by
  have hS35 : ((jsReplaceStrip t.data).take 35).length = 35 := by
    rw [List.length_take]; omega
  have hstrip : jsReplaceStrip (appName t n).data = (appName t n).data := by
    rw [jsReplaceStrip_eq_filter]
    exact List.filter_eq_self.mpr (appName_chars_allowed t n)
  have htake : ((appName t n).data).take 35 = (jsReplaceStrip t.data).take 35 := by
    rw [appName_data]
    exact List.take_left' hS35
  have hs : stripped_app_title (appName t n) = stripped_app_title t := by
    show (⟨(jsReplaceStrip (appName t n).data).take 35⟩ : String) = stripped_app_title t
    rw [hstrip, htake]
    rfl
  show stripped_app_title (appName t n) ++ " PR" ++ Nat.repr n = appName t n
  rw [hs]
  rfl

/-- C6 witness: a 40-letter title has a 40-character stripped form, and its
derived name re-derives to itself. -/
theorem C6_witness :
    35 ≤ (jsReplaceStrip longTitle.data).length ∧
    appName (appName longTitle 7) 7 = appName longTitle 7 :=
  ⟨by decide, C6_idempotent_on_long_titles longTitle 7 (by decide)⟩

/-- The pagination loop, started anywhere at or below the first empty page,
requests every page up to and including the first empty one and accumulates
the non-empty pages in order. -/
lemma getOpenPullRequestsLoop_spec {α : Type} (pages : Nat → List α) (k : Nat)
    (hke : pages k = []) :
    ∀ (fuel cur : Nat) (acc : List α) (req : List Nat),
      cur ≤ k → (∀ j, cur ≤ j → j < k → pages j ≠ []) → k < fuel + cur →
      getOpenPullRequestsLoop pages fuel cur acc req =
        some (req ++ List.range' cur (k + 1 - cur),
          acc ++ ((List.range' cur (k - cur)).map pages).flatten) := by
  intro fuel
  induction fuel with
  | zero => intro cur acc req h1 h2 h3; omega
  | succ fuel ih =>
    intro cur acc req h1 h2 h3
    by_cases hck : cur = k
    · subst hck
      rw [getOpenPullRequestsLoop]
      have e1 : cur + 1 - cur = 1 := by omega
      have e2 : cur - cur = 0 := by omega
      simp [hke, e1, e2, List.range'_one]
    · have hlt : cur < k := by omega
      have hne : pages cur ≠ [] := h2 cur (le_refl _) hlt
      have hf : (pages cur).isEmpty = false := by
        rw [List.isEmpty_eq_false]; exact hne
      rw [getOpenPullRequestsLoop]
      simp only [hf, Bool.false_eq_true, if_false]
      rw [ih (cur + 1) (acc ++ pages cur) (req ++ [cur]) (by omega)
        (fun j hj1 hj2 => h2 j (by omega) hj2) (by omega)]
      have e1 : k + 1 - cur = (k + 1 - (cur + 1)) + 1 := by omega
      have e2 : k - cur = (k - (cur + 1)) + 1 := by omega
      rw [e1, e2, List.range'_succ, List.range'_succ]
      simp [List.append_assoc]

/-- C7: the Pull Request Lister starts at page 1, appends each page's
results while a page is non-empty, advances the cursor by one each time,
and stops at the first empty page `k`, having requested pages `1..k` and
returning the concatenation of pages `1..k-1`. -/
theorem C7_pagination {α : Type} (pages : Nat → List α) (k fuel : Nat)
    (hk : 1 ≤ k) (hne : ∀ j, 1 ≤ j → j < k → pages j ≠ []) (hke : pages k = [])
    (hf : k ≤ fuel) :
    getOpenPullRequests pages fuel =
      some (List.range' 1 k, ((List.range' 1 (k - 1)).map pages).flatten) := by
  unfold getOpenPullRequests
  rw [getOpenPullRequestsLoop_spec pages k hke fuel 1 [] [] hk hne (by omega)]
  have e1 : k + 1 - 1 = k := by omega
  rw [e1]
  simp

set_option maxRecDepth 4000 in
/-- C7 witness: on remote pages of sizes [100, 100, 37] the Lister requests
pages 1, 2, 3, 4 (page 4 is the first empty page) and returns exactly 237
items. -/
theorem C7_witness :
    getOpenPullRequests fixturePages 10 =
      some (List.range' 1 4, ((List.range' 1 3).map fixturePages).flatten) ∧
    List.range' 1 4 = [1, 2, 3, 4] ∧
    (((List.range' 1 3).map fixturePages).flatten).length = 237 := by
  refine ⟨C7_pagination fixturePages 4 10 (by omega) ?_ (by decide) (by omega),
    by decide, by decide⟩
  intro j h1 h2
  interval_cases j <;> decide

lemma mainLoop_first_success (outcome : Nat → Bool) :
    ∀ (r i j : Nat), i ≤ j → j < i + r → outcome j = true →
      (∀ k, i ≤ k → k < j → outcome k = false) →
      mainLoop outcome r i = (0, j) := by
  intro r
  induction r with
  | zero => intro i j h1 h2 h3 h4; omega
  | succ r ih =>
    intro i j h1 h2 h3 h4
    by_cases hij : i = j
    · subst hij
      rw [mainLoop, h3]
      rfl
    · have hfa : outcome i = false := h4 i (le_refl _) (by omega)
      rw [mainLoop, hfa]
      simp only [Bool.false_eq_true, if_false]
      exact ih (i + 1) j (by omega) (by omega) h3 (fun k hk1 hk2 => h4 k (by omega) hk2)

lemma mainLoop_all_fail (outcome : Nat → Bool) :
    ∀ (r i : Nat), (∀ k, i ≤ k → k < i + r → outcome k = false) →
      mainLoop outcome r i = (1, i + r - 1) := by
  intro r
  induction r with
  | zero => intro i h; rw [mainLoop]; rfl
  | succ r ih =>
    intro i h
    have hfa : outcome i = false := h i (le_refl _) (by omega)
    rw [mainLoop, hfa]
    simp only [Bool.false_eq_true, if_false]
    rw [ih (i + 1) (fun k hk1 hk2 => h k (by omega) (by omega))]
    have e : i + 1 + r - 1 = i + (r + 1) - 1 := by omega
    rw [e]

/-- C8: for every configured `max_retries ≥ 1` and every sequence of attempt
outcomes, the run exits 0 at the first successful attempt `j` (having made
exactly `j` attempts), and exits 1 after `max_retries` attempts when every
attempt fails. -/
theorem C8_retry_loop (outcome : Nat → Bool) (m : Nat) (hm : 1 ≤ m) :
    (∀ j, 1 ≤ j → j ≤ m → outcome j = true →
        (∀ i, 1 ≤ i → i < j → outcome i = false) →
        mainRun outcome m = (0, j)) ∧
    ((∀ i, 1 ≤ i → i ≤ m → outcome i = false) → mainRun outcome m = (1, m)) := by
  constructor
  · intro j h1 h2 hj hprev
    exact mainLoop_first_success outcome m 1 j h1 (by omega) hj hprev
  · intro hall
    unfold mainRun
    rw [mainLoop_all_fail outcome m 1 (fun k hk1 hk2 => hall k hk1 (by omega))]
    have e : 1 + m - 1 = m := by omega
    rw [e]

/-- C8 witness: with attempts failing on 1 and 2 and succeeding on 3,
`max_retries = 3` exits 0 after 3 attempts and `max_retries = 2` exits 1
after 2 attempts. -/
theorem C8_witness :
    mainRun succeedsOnThird 3 = (0, 3) ∧ mainRun succeedsOnThird 2 = (1, 2) :=
  ⟨(C8_retry_loop succeedsOnThird 3 (by omega)).1 3 (by omega) (by omega) (by decide)
      (by intro i h1 h2; interval_cases i <;> decide),
    (C8_retry_loop succeedsOnThird 2 (by omega)).2
      (by intro i h1 h2; interval_cases i <;> decide)⟩

/-- C9: every app_id the run passes to the registry's update operation, and
every app_id it publishes as the `app_id` output, originates from a prior
registry response: the `appList` response, or the App returned by an
`appRegister`/`appUpdate` response. -/
theorem C9_app_id_provenance (env : Env) (apps : List App) (hl : env.apps = some apps) :
    (∀ i o, RegistryRequest.update i o ∈ (runAction env).requests →
        i ∈ apps.map App.app_id) ∧
    (∀ v, (runAction env).out_app_id = some v →
        v ∈ apps.map App.app_id ∨
        (∃ o a, env.register_resp o = some a ∧ a.app_id = v) ∨
        (∃ i o a, env.update_resp i o = some a ∧ a.app_id = v)) := by
  rcases ho : env.open_prs with _ | open_urls
  · rw [runAction_no_prs env ho]
    exact ⟨fun i o h => absurd h (by simp [emptyResult]),
      fun v h => absurd h (by simp [emptyResult])⟩
  rcases hauth : env.authorise_ok with _ | _
  · rw [runAction_no_auth env open_urls ho hauth]
    exact ⟨fun i o h => absurd h (by simp [emptyResult]),
      fun v h => absurd h (by simp [emptyResult])⟩
  rw [runAction_eq_runPolicy env open_urls apps ho hauth hl]
  rcases hstale : apps.find? (isPrAppStaleUri env.issue.html_url env.preview_url) with _ | a
  · rcases hcur : apps.find? (isPrAppCurrentUri env.issue.html_url env.preview_url) with _ | e
    · rw [runPolicy_nomatch env open_urls apps hstale hcur]
      rcases hrec : apps.find? (isRecyclable open_urls) with _ | r
      · rw [normalFinish_none_eq]
        rcases hresp : env.register_resp (app_options env.issue env.preview_url) with _ | app
        · constructor
          · intro i o h
            simp [emptyResult, requestFor_none] at h
          · intro v hv
            simp [emptyResult] at hv
        · constructor
          · intro i o h
            simp [requestFor_none] at h
          · intro v hv
            simp at hv
            exact Or.inr (Or.inl ⟨app_options env.issue env.preview_url, app, hresp, hv⟩)
      · rw [normalFinish_some_eq]
        have hmem : r ∈ apps := List.mem_of_find?_eq_some hrec
        rcases hresp : env.update_resp r.app_id (app_options env.issue env.preview_url) with _ | app
        · constructor
          · intro i o h
            simp [emptyResult, requestFor_some] at h
            exact h.1 ▸ List.mem_map_of_mem App.app_id hmem
          · intro v hv
            simp [emptyResult] at hv
        · constructor
          · intro i o h
            simp [requestFor_some] at h
            exact h.1 ▸ List.mem_map_of_mem App.app_id hmem
          · intro v hv
            simp at hv
            exact Or.inr (Or.inr ⟨r.app_id, app_options env.issue env.preview_url, app, hresp, hv⟩)
    · rw [runPolicy_noop env open_urls apps e hstale hcur]
      have hmeme : e ∈ apps := List.mem_of_find?_eq_some hcur
      constructor
      · intro i o h
        rcases hrec : apps.find? (isRecyclable open_urls) with _ | r
        · simp [noopHaltResult, hrec, requestFor_none] at h
        · simp [noopHaltResult, hrec, requestFor_some] at h
          exact h.1 ▸ List.mem_map_of_mem App.app_id (List.mem_of_find?_eq_some hrec)
      · intro v hv
        simp [noopHaltResult] at hv
        exact Or.inl (hv ▸ List.mem_map_of_mem App.app_id hmeme)
  · rw [runPolicy_stale env open_urls apps a hstale, normalFinish_some_eq]
    have hmem : a ∈ apps := List.mem_of_find?_eq_some hstale
    rcases hresp : env.update_resp a.app_id (app_options env.issue env.preview_url) with _ | app
    · constructor
      · intro i o h
        simp [emptyResult, requestFor_some] at h
        exact h.1 ▸ List.mem_map_of_mem App.app_id hmem
      · intro v hv
        simp [emptyResult] at hv
    · constructor
      · intro i o h
        simp [requestFor_some] at h
        exact h.1 ▸ List.mem_map_of_mem App.app_id hmem
      · intro v hv
        simp at hv
        exact Or.inr (Or.inr ⟨a.app_id, app_options env.issue env.preview_url, app, hresp, hv⟩)

/-- C9 witness: in `envProv` the update request targets app_id 41, which
indeed comes from the `appList` response. -/
theorem C9_witness :
    41 ∈ [appStale41].map App.app_id :=
  (C9_app_id_provenance envProv [appStale41] rfl).1 41 (app_options issue7 "p") (by decide)

/-- C10: when the `max_retries` input is absent, `core.getInput` yields the
empty string, which coerces to 0, so the retry loop body never executes: no
attempt is made and the run exits with code 1. -/
theorem C10_missing_max_retries_no_attempts (outcome : Nat → Bool) :
    mainRun outcome (jsNumber "") = (1, 0) := rfl

end DerivAppIdAction
